import Mathlib

/-!
Verification of the `mem-alloc` repository: a fixed-arena memory allocator
with two strategies, a bump allocator (`src/bumper.rs`) and a free-list
allocator (`src/free_list/`).

The development is a shallow embedding of the Rust sources:
* machine integers (`usize`) become `Nat`; the source performs no wrapping
  arithmetic on the paths modelled here (all subtractions are guarded),
* raw pointers into the arena become `Nat` offsets from the arena base,
* the arena bytes, reinterpreted as free-list `Node` headers and trailing
  `AllocationMetadata` records, are modelled twice: as two point-wise
  updatable typed maps (`Memory.nodes`, `Memory.metas`), an idealization
  sound only while record writes never partially overlap records that are
  read later, and as a byte-accurate record heap (`BMem`) in which a write
  destroys every byte-overlapping record and a read of a destroyed or
  retyped record halts the model — a completed `BMem` run therefore
  performs exactly the reads and writes of the real execution, with every
  read returning the value the real bytes hold; the corruption traces are
  stated over `BMem`,
* the `Mutex`-serialized free-list operations become pure state-passing
  functions on `AllocState`; unbounded `loop` / `while` walks take explicit
  fuel and return `none` when the fuel runs out (termination on a corrupted
  list is not otherwise guaranteed),
* a panicking path (`Option::unwrap` on `None`) is modelled as `none`.

Layout constants are those of the 64-bit targets the crate is built for:
`size_of::<Node>()` = 24 (`Option<*const u8>` has no niche, so 16 bytes,
plus 8 for `usize size`), `size_of::<AllocationMetadata>()` = 16.
-/

namespace MemAlloc

/-- `NODE_LAYOUT_SIZE` from `src/free_list/node.rs`: byte size of a `Node`
free-list header on a 64-bit target. -/
def NODE_LAYOUT_SIZE : Nat := 24

/-- `ALLOCATION_METADATA_LAYOUT_SIZE` from `src/free_list/node.rs`: byte size
of an `AllocationMetadata` record on a 64-bit target. -/
def ALLOCATION_METADATA_LAYOUT_SIZE : Nat := 16

/-- `Node` from `src/free_list/node.rs`: an intrusive free-list header,
holding the optional address of the next free node and the byte size of its
free block. -/
structure Node where
  next_ptr : Option Nat
  size : Nat
deriving Repr, DecidableEq

/-- `AllocationSpecs` from `src/free_list/node.rs`: sizes describing one
candidate allocation against one free node. -/
structure AllocationSpecs where
  /-- Allocation padding (to add before value) -/
  padding : Nat
  /-- Size of the value to allocate -/
  size : Nat
  /-- Fill padding (to add after metadata) -/
  fill_padding : Nat
  /-- Remaining size if it can at least contain a Node -/
  remaining_size : Nat
deriving Repr, DecidableEq

/-- `AllocationMetadata` from `src/free_list/node.rs`: record written after
each allocation's payload so the block can be recovered at deallocation. -/
structure AllocationMetadata where
  align_padding : Nat
  fill_padding : Nat
deriving Repr, DecidableEq

/-- `Node::try_get_alloc_specs` from `src/free_list/node.rs` lines 15-56.
`ptr` is the address of the free node `node`.  Rust's `Err(())` becomes
`none`. -/
def Node.try_get_alloc_specs (node : Node) (size align ptr : Nat) :
    Option AllocationSpecs :=
  if size > node.size then
    -- Fast out: not enough bytes available
    none
  else
    let alloc_padding := (align - ptr % align) % align
    let alloc_size := alloc_padding + size + ALLOCATION_METADATA_LAYOUT_SIZE
    if node.size > alloc_size + NODE_LAYOUT_SIZE then
      -- Can add a Node after allocation
      let fill_padding :=
        if NODE_LAYOUT_SIZE ≤ alloc_size then 0
        else NODE_LAYOUT_SIZE - alloc_size
      some { padding := alloc_padding, size := size, fill_padding := fill_padding,
             remaining_size := node.size - alloc_size - fill_padding }
    else if alloc_size ≤ node.size ∧ node.size ≥ NODE_LAYOUT_SIZE then
      some { padding := alloc_padding, size := size,
             fill_padding := node.size - alloc_size, remaining_size := 0 }
    else
      -- Padding and metadata causes the allocation to fail
      none

/-- The arena bytes, viewed through the two typed interpretations the source
uses: `ptr::read/write` of `Node` headers and of `AllocationMetadata`
records at byte offsets.  This typed view is an idealization: a write
updates its own address only and never destroys a byte-overlapping record
at a nearby address the way the real 24/16-byte `ptr::write` does.  It is
therefore used only for properties whose reads are of records that no
overlapping write has touched (single calls, or runs certified through the
byte-accurate `BMem` model below). -/
structure Memory where
  nodes : Nat → Node
  metas : Nat → AllocationMetadata

/-- Model of `ptr::write(addr as *mut Node, n)` in the typed view. -/
def Memory.writeNode (m : Memory) (addr : Nat) (n : Node) : Memory :=
  { m with nodes := fun x => if x = addr then n else m.nodes x }

/-- Model of `ptr::write(addr as *mut AllocationMetadata, md)` in the typed
view. -/
def Memory.writeMeta (m : Memory) (addr : Nat) (md : AllocationMetadata) :
    Memory :=
  { m with metas := fun x => if x = addr then md else m.metas x }

/-- `AllocatorRoot` from `src/free_list/alloc_root.rs`: the optional address
of the first free node. -/
structure AllocatorRoot where
  free_root : Option Nat
deriving Repr, DecidableEq

/-- The full mutable state of a `FreeListAllocator`: the root pointer plus
the arena contents. -/
structure AllocState where
  root : AllocatorRoot
  mem : Memory

/-- `AllocatorRoot::split_alloc` from `src/free_list/alloc_root.rs` lines
28-92.  Allocates in place of the free node `current` (whose address the
source recovers as `prev_node.next_ptr.unwrap()`), writing the allocation
metadata after the payload and, when `remaining_size != 0`, a new free node
after the fill padding.  Returns the updated state and the allocation
pointer; `none` models the `unwrap` panic when neither a previous node nor a
root exists.  As in the source, a non-root `previous` node is updated only
in its local copy, which is dropped: the arena copy keeps its old
`next_ptr`. -/
def split_alloc (st : AllocState) (previous : Option Node) (current : Node)
    (alloc_specs : AllocationSpecs) : Option (AllocState × Nat) :=
  let is_root := previous.isNone
  let prev_node : Node :=
    match previous with
    | some prev => prev
    | none =>
      -- Dummy node
      { next_ptr := st.root.free_root, size := 0 }
  match prev_node.next_ptr with
  | none => none -- models the panic of `prev_node.next_ptr.unwrap()`
  | some current_ptr =>
    -- calculate allocation ptr (current block start + padding)
    let alloc_ptr := current_ptr + alloc_specs.padding
    -- Write allocation metadata after value
    let ptr_cursor := alloc_ptr + alloc_specs.size
    let metadata : AllocationMetadata :=
      { align_padding := alloc_specs.padding,
        fill_padding := alloc_specs.fill_padding }
    let mem1 := st.mem.writeMeta ptr_cursor metadata
    if alloc_specs.remaining_size ≠ 0 then
      -- Split the area into allocated and free
      let ptr_cursor2 :=
        ptr_cursor + ALLOCATION_METADATA_LAYOUT_SIZE + alloc_specs.fill_padding
      let node : Node :=
        { next_ptr := current.next_ptr, size := alloc_specs.remaining_size }
      let mem2 := mem1.writeNode ptr_cursor2 node
      let prev_next : Option Nat := some ptr_cursor2
      let root' : AllocatorRoot :=
        if is_root then { free_root := prev_next } else st.root
      some ({ root := root', mem := mem2 }, alloc_ptr)
    else
      -- No remaining size, simply remove the node
      let prev_next := current.next_ptr
      let root' : AllocatorRoot :=
        if is_root then { free_root := prev_next } else st.root
      some ({ root := root', mem := mem1 }, alloc_ptr)

/-- The `loop` of `AllocatorRoot::find_insertion_point`
(`src/free_list/alloc_root.rs` lines 144-160), with explicit fuel; `none`
means the fuel ran out. -/
def find_insertion_point_go (mem : Memory) (block_ptr : Nat) :
    Nat → Nat → Option (Option Nat × Option Nat)
  | _, 0 => none
  | previous_node_ptr, fuel + 1 =>
    let previous_node := mem.nodes previous_node_ptr
    match previous_node.next_ptr with
    | some p =>
      if block_ptr < p then
        -- Found the place to store the new node
        some (some previous_node_ptr, some p)
      else
        -- Iterate
        find_insertion_point_go mem block_ptr p fuel
    | none =>
      -- Reached the end of the list
      some (some previous_node_ptr, none)

/-- `AllocatorRoot::find_insertion_point` from `src/free_list/alloc_root.rs`
lines 133-161. -/
def find_insertion_point (mem : Memory) (block_ptr root_ptr : Nat)
    (fuel : Nat) : Option (Option Nat × Option Nat) :=
  if block_ptr < root_ptr then some (none, some root_ptr)
  else find_insertion_point_go mem block_ptr root_ptr fuel

/-- `AllocatorRoot::try_merge_nodes` from `src/free_list/alloc_root.rs`
lines 168-204.  Returns the computed node and the address to write it to. -/
def try_merge_nodes (mem : Memory) (block_ptr block_size : Nat)
    (previous_ptr next_ptr : Option Nat) : Node × Nat :=
  let node0 : Node := { size := block_size, next_ptr := none }
  let new_ptr0 := block_ptr
  let step1 : Node × Nat :=
    match previous_ptr with
    | some p =>
      let previous := mem.nodes p
      if new_ptr0 = p + previous.size then
        -- Merge with previous
        ({ size := node0.size + previous.size,
           next_ptr := previous.next_ptr }, p)
      else
        ({ node0 with next_ptr := previous.next_ptr }, new_ptr0)
    | none => (node0, new_ptr0)
  let node1 := step1.1
  let new_ptr1 := step1.2
  match next_ptr with
  | some p =>
    if new_ptr1 + node1.size = p then
      let next := mem.nodes p
      -- Merge with next (don't update node pointer)
      ({ size := node1.size + next.size, next_ptr := next.next_ptr },
       new_ptr1)
    else
      ({ node1 with next_ptr := next_ptr }, new_ptr1)
  | none => (node1, new_ptr1)

/-- `AllocatorRoot::create_free_node` from `src/free_list/alloc_root.rs`
lines 95-124.  As in the source, when a previous node exists and the merged
node is not written at the previous node's address, the previous node's
arena copy is left pointing at its old successor. -/
def create_free_node (st : AllocState) (block_ptr initial_size fuel : Nat) :
    Option AllocState :=
  match st.root.free_root with
  | none =>
    -- No root pointer registered yet: write the node in place, set as root
    let node : Node := { size := initial_size, next_ptr := none }
    some { root := { free_root := some block_ptr },
           mem := st.mem.writeNode block_ptr node }
  | some root_ptr =>
    match find_insertion_point st.mem block_ptr root_ptr fuel with
    | none => none
    | some (previous_ptr, next_ptr) =>
      let res := try_merge_nodes st.mem block_ptr initial_size
        previous_ptr next_ptr
      let node := res.1
      let dest_ptr := res.2
      let mem' := st.mem.writeNode dest_ptr node
      let root' : AllocatorRoot :=
        if previous_ptr = none then { free_root := some dest_ptr }
        else st.root
      some { root := root', mem := mem' }

/-- The `while let Some(node_ptr) = previous_node.next_ptr` search loop of
`FreeListAllocator::alloc` (`src/free_list/mod.rs` lines 82-91), with
explicit fuel.  `some none` means the walk reached the end of the list with
no fit; `some (some (previous_node, node, node_ptr, specs))` is the first
accepting node together with the loop state the source passes to
`split_alloc`. -/
def alloc_find (mem : Memory) (size align : Nat) :
    Nat → Node → Option (Option (Node × Node × Nat × AllocationSpecs))
  | 0, previous_node =>
    match previous_node.next_ptr with
    | none => some none
    | some _ => none
  | fuel + 1, previous_node =>
    match previous_node.next_ptr with
    | none => some none
    | some node_ptr =>
      let node := mem.nodes node_ptr
      match node.try_get_alloc_specs size align node_ptr with
      | some alloc_specs => some (some (previous_node, node, node_ptr, alloc_specs))
      | none => alloc_find mem size align fuel node

/-- `FreeListAllocator::alloc` from `src/free_list/mod.rs` lines 63-95.
Returns `some (state, some ptr)` on success, `some (state, none)` for the
source's `null_mut()` failure, `none` when the walk fuel runs out. -/
def alloc (st : AllocState) (size align fuel : Nat) :
    Option (AllocState × Option Nat) :=
  match st.root.free_root with
  | none => some (st, none) -- No memory available
  | some node_ptr =>
    -- Initial node
    let node := st.mem.nodes node_ptr
    match node.try_get_alloc_specs size align node_ptr with
    | some alloc_specs =>
      (split_alloc st none node alloc_specs).map fun r => (r.1, some r.2)
    | none =>
      -- Iterate over free nodes until one matches size requirements
      match alloc_find st.mem size align fuel node with
      | none => none
      | some none => some (st, none) -- Failed to find a suitable space
      | some (some (previous_node, node', _, alloc_specs)) =>
        (split_alloc st (some previous_node) node' alloc_specs).map
          fun r => (r.1, some r.2)

/-- The block-recovery computation of `FreeListAllocator::dealloc`
(`src/free_list/mod.rs` lines 100-113): read the metadata trailing the
payload and recover the block start and total block size. -/
def dealloc_block (mem : Memory) (ptr size : Nat) : Nat × Nat :=
  -- Get allocation metadata
  let metadata := mem.metas (ptr + size)
  -- Get start of block
  let block_ptr := ptr - metadata.align_padding
  (block_ptr,
   metadata.align_padding + size + ALLOCATION_METADATA_LAYOUT_SIZE
     + metadata.fill_padding)

/-- `FreeListAllocator::dealloc` from `src/free_list/mod.rs` lines 97-115. -/
def dealloc (st : AllocState) (ptr size fuel : Nat) : Option AllocState :=
  let block := dealloc_block st.mem ptr size
  create_free_node st block.1 block.2 fuel

/-- The initial state produced by `FreeListAllocator::<S>::new`
(`src/free_list/mod.rs` lines 38-59): one free node of size `S` written at
the start of the arena (offset 0) and registered as the root.  Unwritten
arena bytes are modelled as zeroed. -/
def newAllocState (S : Nat) : AllocState :=
  { root := { free_root := some 0 },
    mem :=
      Memory.writeNode
        { nodes := fun _ => { next_ptr := none, size := 0 },
          metas := fun _ => { align_padding := 0, fill_padding := 0 } }
        0 { next_ptr := none, size := S } }

/-- Walk the free list from a root pointer, collecting the node addresses in
list order; `none` when the fuel runs out before the end of the list. -/
def walkChainO (mem : Memory) : Option Nat → Nat → Option (List Nat)
  | none, _ => some []
  | some _, 0 => none
  | some a, fuel + 1 =>
    (walkChainO mem (mem.nodes a).next_ptr fuel).map fun l => a :: l

/-- Address of the first node of `chain` that accepts a `(size, align)`
request, per `Node::try_get_alloc_specs`. -/
def firstFit (mem : Memory) (size align : Nat) (chain : List Nat) :
    Option Nat :=
  chain.find? fun a =>
    ((mem.nodes a).try_get_alloc_specs size align a).isSome

/-- One external call to the free-list allocator. -/
inductive Op where
  | alloc (size align : Nat)
  | dealloc (ptr size : Nat)

/-! ## Shared characterization of `try_get_alloc_specs` -/

/-- Accounting facts about any accepted allocation: the specs echo the
request size and alignment padding, the consumed block
(padding + size + metadata + fill) plus the remainder is exactly the node's
size, and the consumed block is at least one node header large. -/
lemma try_get_alloc_specs_accounting (node : Node) (size align ptr : Nat)
    (specs : AllocationSpecs)
    (h : node.try_get_alloc_specs size align ptr = some specs) :
    specs.size = size ∧
    specs.padding = (align - ptr % align) % align ∧
    specs.padding + specs.size + ALLOCATION_METADATA_LAYOUT_SIZE
        + specs.fill_padding + specs.remaining_size = node.size ∧
    NODE_LAYOUT_SIZE ≤ specs.padding + specs.size
        + ALLOCATION_METADATA_LAYOUT_SIZE + specs.fill_padding := by
  unfold Node.try_get_alloc_specs at h
  unfold NODE_LAYOUT_SIZE ALLOCATION_METADATA_LAYOUT_SIZE at *
  split at h
  · exact absurd h (by simp)
  · rename_i h0
    dsimp only at h
    split at h
    · rename_i h1
      split at h
      · rename_i h2
        obtain rfl := Option.some.inj h
        refine ⟨rfl, rfl, ?_, ?_⟩ <;> simp <;> omega
      · rename_i h2
        obtain rfl := Option.some.inj h
        refine ⟨rfl, rfl, ?_, ?_⟩ <;> simp <;> omega
    · split at h
      · rename_i h1 h2
        obtain rfl := Option.some.inj h
        refine ⟨rfl, rfl, ?_, ?_⟩ <;> simp <;> omega
      · exact absurd h (by simp)

/-! ## Claim theorems -/

/-- Claim C1: for every free node, request size, alignment `align ≥ 1` and
node address, `try_get_alloc_specs` rejects exactly when `size > node.size`,
or `alloc_size > node.size`, or `alloc_size ≤ node.size` but
`node.size < NODE_LAYOUT_SIZE`, where
`alloc_size = padding + size + metadata_size` and
`padding = (align - address % align) % align`; and whenever it accepts with
`alloc_size ≤ node.size ≤ alloc_size + NODE_LAYOUT_SIZE` it returns exactly
`{padding, size, fill_padding = node.size - alloc_size, remaining_size = 0}`. -/
theorem freeListC1_specs_cases (node : Node) (size align ptr padding alloc_size : Nat)
    (halign : 1 ≤ align)
    (hpad : padding = (align - ptr % align) % align)
    (hsz : alloc_size = padding + size + ALLOCATION_METADATA_LAYOUT_SIZE) :
    (node.try_get_alloc_specs size align ptr = none ↔
      (node.size < size ∨ node.size < alloc_size ∨
        (alloc_size ≤ node.size ∧ node.size < NODE_LAYOUT_SIZE)))
    ∧ ∀ specs : AllocationSpecs,
        node.try_get_alloc_specs size align ptr = some specs →
        alloc_size ≤ node.size → node.size ≤ alloc_size + NODE_LAYOUT_SIZE →
        specs = ⟨padding, size, node.size - alloc_size, 0⟩ := by
  subst hpad; subst hsz
  unfold Node.try_get_alloc_specs
  unfold NODE_LAYOUT_SIZE ALLOCATION_METADATA_LAYOUT_SIZE
  constructor
  · constructor
    · intro h
      split at h
      · omega
      · dsimp only at h
        split at h
        · exact absurd h (by simp)
        · split at h
          · exact absurd h (by simp)
          · rename_i h0 h1 h2
            rw [Decidable.not_and_iff_or_not] at h2
            omega
    · intro hrej
      split
      · rfl
      · dsimp only
        split
        · omega
        · split
          · rename_i h0 h1 h2
            omega
          · rfl
  · intro specs h hlo hhi
    split at h
    · exact absurd h (by simp)
    · dsimp only at h
      split at h
      · omega
      · split at h
        · exact (Option.some.inj h).symm
        · exact absurd h (by simp)

/-- Claim C1 witness: concrete instantiation — a request of size 4 at align
1 is rejected by a node of size 10 (since `alloc_size = 20 > 10`), and the
accept of the same request by a node of size 40 (which falls in the
whole-block window `20 ≤ 40 ≤ 20 + 24`) returns exactly
`{0, 4, 40 - 20, 0}`. -/
theorem freeListC1_specs_cases_witness :
    Node.try_get_alloc_specs ⟨none, 10⟩ 4 1 0 = none ∧
    (⟨0, 4, 20, 0⟩ : AllocationSpecs) = ⟨0, 4, 40 - 20, 0⟩ := by
  refine ⟨((freeListC1_specs_cases ⟨none, 10⟩ 4 1 0 0 20 (by decide) (by decide)
      (by decide)).1).2 (by decide), ?_⟩
  exact (freeListC1_specs_cases ⟨none, 40⟩ 4 1 0 0 20 (by decide) (by decide)
      (by decide)).2 ⟨0, 4, 20, 0⟩ (by rfl) (by decide) (by decide)

/-- Claim C2 (code bug): `try_get_alloc_specs` on a free node of size 45
(request size 4, align 1, address 0) accepts with
`remaining_size = 21`, which is nonzero yet smaller than
`NODE_LAYOUT_SIZE = 24` — the split branch's guard
`node.size > alloc_size + NODE_LAYOUT_SIZE` forgets the `fill_padding` that
is then subtracted from the remainder, contradicting the source's own
documentation of `remaining_size` ("Remaining size if it can at least
contain a Node") and the spec. `split_alloc` then writes a 24-byte `Node`
header into that 21-byte remainder. -/
theorem freeListC2_remaining_too_small :
    Node.try_get_alloc_specs ⟨none, 45⟩ 4 1 0 = some ⟨0, 4, 4, 21⟩ ∧
    (0 < 21 ∧ 21 < NODE_LAYOUT_SIZE) := by
  constructor
  · rfl
  · decide

/-- Claim C3: every accepted allocation consumes a block
`padding + size + metadata_size + fill_padding` of at least
`NODE_LAYOUT_SIZE` bytes, so every allocated block, once freed, can host a
fresh free-node header in place. -/
theorem freeListC3_reservation (node : Node) (size align ptr : Nat)
    (halign : 1 ≤ align) (specs : AllocationSpecs)
    (h : node.try_get_alloc_specs size align ptr = some specs) :
    NODE_LAYOUT_SIZE ≤ specs.padding + specs.size
      + ALLOCATION_METADATA_LAYOUT_SIZE + specs.fill_padding :=
  (try_get_alloc_specs_accounting node size align ptr specs h).2.2.2

/-- Claim C3 witness: the reservation bound at the concrete accept of a
request (size 4, align 1, address 0) against a node of size 45. -/
theorem freeListC3_reservation_witness :
    NODE_LAYOUT_SIZE ≤ (0 : Nat) + 4 + ALLOCATION_METADATA_LAYOUT_SIZE + 4 :=
  freeListC3_reservation ⟨none, 45⟩ 4 1 0 (by decide) ⟨0, 4, 4, 21⟩ (by rfl)

/-- Any call to `split_alloc` whose current-node address resolves (previous
node's `next_ptr`, or the root for a root allocation) succeeds and returns
the allocation pointer `current_ptr + padding`. -/
lemma split_alloc_ptr (st : AllocState) (previous : Option Node)
    (current : Node) (specs : AllocationSpecs) (cur_ptr : Nat)
    (hcur : (match previous with
             | some p => p.next_ptr
             | none => st.root.free_root) = some cur_ptr) :
    ∃ st', split_alloc st previous current specs
      = some (st', cur_ptr + specs.padding) := by
  unfold split_alloc
  cases previous with
  | none =>
    dsimp only at hcur ⊢
    rw [hcur]
    dsimp only
    split <;> exact ⟨_, rfl⟩
  | some p =>
    dsimp only at hcur ⊢
    rw [hcur]
    dsimp only
    split <;> exact ⟨_, rfl⟩

/-- Claim C4: for every allocation that succeeded — `split_alloc` in place
of an accepting node at `cur_ptr`, returning pointer
`P = cur_ptr + padding` and writing `AllocationMetadata
{align_padding, fill_padding}` after the payload — the deallocation
computation on `(P, size)` recovers exactly the block start
`P - align_padding = cur_ptr` and block size
`align_padding + size + metadata_size + fill_padding`, which together with
`remaining_size` accounts for exactly the extent the accepting free node
gave up. -/
theorem freeListC4_metadata_roundtrip (st : AllocState)
    (previous : Option Node) (current : Node) (specs : AllocationSpecs)
    (size align cur_ptr : Nat)
    (hcur : (match previous with
             | some p => p.next_ptr
             | none => st.root.free_root) = some cur_ptr)
    (hspecs : current.try_get_alloc_specs size align cur_ptr = some specs) :
    ∃ st',
      split_alloc st previous current specs
        = some (st', cur_ptr + specs.padding) ∧
      dealloc_block st'.mem (cur_ptr + specs.padding) size
        = (cur_ptr,
           specs.padding + size + ALLOCATION_METADATA_LAYOUT_SIZE
             + specs.fill_padding) ∧
      specs.padding + size + ALLOCATION_METADATA_LAYOUT_SIZE
          + specs.fill_padding + specs.remaining_size = current.size := by
  obtain ⟨hsz, hpad, hsum, hmin⟩ :=
    try_get_alloc_specs_accounting _ _ _ _ _ hspecs
  rw [hsz] at hsum
  have hblock : ∀ m : Memory,
      m.metas (cur_ptr + specs.padding + size)
        = ⟨specs.padding, specs.fill_padding⟩ →
      dealloc_block m (cur_ptr + specs.padding) size
        = (cur_ptr,
           specs.padding + size + ALLOCATION_METADATA_LAYOUT_SIZE
             + specs.fill_padding) := by
    intro m hm
    unfold dealloc_block
    rw [hm]
    dsimp only
    simp only [Prod.mk.injEq]
    exact ⟨by omega, by trivial⟩
  unfold split_alloc
  cases previous with
  | none =>
    dsimp only at hcur ⊢
    rw [hcur]
    dsimp only
    split
    · refine ⟨_, rfl, ?_, hsum⟩
      refine hblock _ ?_
      unfold Memory.writeNode Memory.writeMeta
      dsimp only
      rw [hsz, if_pos rfl]
    · refine ⟨_, rfl, ?_, hsum⟩
      refine hblock _ ?_
      unfold Memory.writeMeta
      dsimp only
      rw [hsz, if_pos rfl]
  | some p =>
    dsimp only at hcur ⊢
    rw [hcur]
    dsimp only
    split
    · refine ⟨_, rfl, ?_, hsum⟩
      refine hblock _ ?_
      unfold Memory.writeNode Memory.writeMeta
      dsimp only
      rw [hsz, if_pos rfl]
    · refine ⟨_, rfl, ?_, hsum⟩
      refine hblock _ ?_
      unfold Memory.writeMeta
      dsimp only
      rw [hsz, if_pos rfl]

/-- Claim C4 witness: on a fresh 128-byte arena (root node at 0, size 128),
the accepted request (size 4, align 1) yields specs `{0, 4, 4, 104}`; the
split succeeds at pointer 0 and the deallocation computation recovers block
start 0 and block size `0 + 4 + 16 + 4 = 24`, with `24 + 104 = 128` the
node's full extent. -/
theorem freeListC4_metadata_roundtrip_witness :
    ∃ st',
      split_alloc (newAllocState 128) none ⟨none, 128⟩ ⟨0, 4, 4, 104⟩
        = some (st', 0 + 0) ∧
      dealloc_block st'.mem (0 + 0) 4
        = (0, 0 + 4 + ALLOCATION_METADATA_LAYOUT_SIZE + 4) ∧
      0 + 4 + ALLOCATION_METADATA_LAYOUT_SIZE + 4 + 104
        = Node.size ⟨none, 128⟩ :=
  freeListC4_metadata_roundtrip (newAllocState 128) none ⟨none, 128⟩
    ⟨0, 4, 4, 104⟩ 4 1 0 (by rfl) (by rfl)

/-! ## Bump allocator (`src/bumper.rs`) -/

/-- The closure passed to `fetch_update` in `BumpAllocator::<N>::alloc`
(`src/bumper.rs` lines 80-96): given the current cursor, produce the new
cursor, or `none` to fail. -/
def bump_try_update (N allocated size align : Nat) : Option Nat :=
  if size > N - allocated then
    -- Not enough bytes available
    none
  else
    let alloc_padding := (align - allocated % align) % align
    let alloc_offset := allocated + alloc_padding
    let alloc_end := alloc_offset + size
    if alloc_end ≤ N then some alloc_end
    else
      -- Padding causes the allocation to fail: not enough bytes available
      none

/-- `BumpAllocator::<N>::alloc` from `src/bumper.rs` lines 72-104, acting on
the cursor `allocated`: returns the new cursor value together with the
allocated offset (`none` for the source's `null_mut()`; on failure
`fetch_update` leaves the cursor unchanged). -/
def bump_alloc (N allocated size align : Nat) : Nat × Option Nat :=
  match bump_try_update N allocated size align with
  | some alloc_end =>
    (alloc_end, some (allocated + (align - allocated % align) % align))
  | none => (allocated, none)

/-- Claim C8: for every cursor `c ≤ N` and request `(size, align)` with
`align ≥ 1`, the bump allocator computes
`padding = (align - c % align) % align` and succeeds by advancing the
cursor to `c + padding + size` exactly when that sum does not exceed `N`,
returning offset `c + padding`; otherwise (including when padding alone
pushes past capacity) it fails and leaves the cursor unchanged. -/
theorem bumpC8_cursor_advance (N c size align padding : Nat)
    (halign : 1 ≤ align) (hc : c ≤ N)
    (hpad : padding = (align - c % align) % align) :
    (c + padding + size ≤ N →
      bump_alloc N c size align = (c + padding + size, some (c + padding)))
    ∧ (N < c + padding + size →
      bump_alloc N c size align = (c, none)) := by
  subst hpad
  unfold bump_alloc bump_try_update
  constructor
  · intro h
    rw [if_neg (by omega)]
    dsimp only
    rw [if_pos (by omega)]
  · intro h
    by_cases h1 : size > N - c
    · rw [if_pos h1]
    · rw [if_neg h1]
      dsimp only
      rw [if_neg (by omega)]

/-- Claim C8 witness: on a 64-byte arena at cursor 0, a request (10, 8)
needs no padding and advances the cursor to 10 returning offset 0; at
cursor 60 the same request (padding 4) would need 74 > 64 bytes, fails, and
leaves the cursor at 60. -/
theorem bumpC8_cursor_advance_witness :
    bump_alloc 64 0 10 8 = (0 + 0 + 10, some (0 + 0)) ∧
    bump_alloc 64 60 10 8 = (60, none) :=
  ⟨(bumpC8_cursor_advance 64 0 10 8 0 (by decide) (by decide) (by decide)).1
      (by decide),
   (bumpC8_cursor_advance 64 60 10 8 4 (by decide) (by decide) (by decide)).2
      (by decide)⟩

/-! ## Byte-accurate record heap

The typed `Memory` never lets one `ptr::write` destroy a neighbouring
record, but the real 24-byte `Node` and 16-byte `AllocationMetadata` writes
do exactly that when their byte spans overlap.  `BMem` models the arena as
the set of typed records whose bytes are currently intact: a write removes
every record whose byte span it overlaps (as the real write destroys those
bytes) before storing the new record, and a read returns a record only when
it is present at exactly the requested address with the requested type —
i.e. when its defining write is the last write to touch any of its bytes.
Reading a destroyed or retyped record makes the model return `none`.  A run
that completes with `some` therefore performs exactly the reads and writes
the real execution performs, and every read returns the value the real
bytes hold at that moment: its final state is real program behaviour, with
no layout assumption beyond the record sizes 24 and 16. -/

/-- A typed record written into the arena. -/
inductive Rec where
  | node (n : Node)
  | meta (m : AllocationMetadata)
deriving Repr, DecidableEq

/-- Byte footprint of a record: 24 for a `Node` header, 16 for an
`AllocationMetadata` record. -/
def recSize : Rec → Nat
  | .node _ => NODE_LAYOUT_SIZE
  | .meta _ => ALLOCATION_METADATA_LAYOUT_SIZE

/-- The byte intervals `[a1, a1+n1)` and `[a2, a2+n2)` intersect. -/
def spansOverlap (a1 n1 a2 n2 : Nat) : Bool :=
  decide (a1 < a2 + n2) && decide (a2 < a1 + n1)

/-- Byte-accurate arena contents: the intact typed records, each keyed by
its start address.  At most one record exists per address, because any
write removes every byte-overlapping record. -/
abbrev BMem := List (Nat × Rec)

/-- Model of `ptr::write` at `a`: destroy every record whose bytes the
write touches, then store the new record. -/
def bwrite (m : BMem) (a : Nat) (r : Rec) : BMem :=
  (a, r) :: m.filter fun x => ! spansOverlap a (recSize r) x.1 (recSize x.2)

/-- Model of `ptr::read(a as *const Node)`: the intact `Node` record at
`a`, or `none` when those bytes were overwritten or hold another type. -/
def breadNode (m : BMem) (a : Nat) : Option Node :=
  match m.find? (fun x => x.1 = a) with
  | some (_, Rec.node n) => some n
  | _ => none

/-- Model of `ptr::read(a as *const AllocationMetadata)`: the intact
metadata record at `a`, or `none` when clobbered or retyped. -/
def breadMeta (m : BMem) (a : Nat) : Option AllocationMetadata :=
  match m.find? (fun x => x.1 = a) with
  | some (_, Rec.meta md) => some md
  | _ => none

/-- Free-list allocator state over the byte-accurate arena. -/
structure BState where
  root : AllocatorRoot
  mem : BMem

/-- `AllocatorRoot::split_alloc` (`alloc_root.rs` lines 28-92) over the
byte-accurate arena; control flow identical to `split_alloc` above, with
`bwrite` for the metadata and split-node writes. -/
def split_alloc_b (st : BState) (previous : Option Node) (current : Node)
    (alloc_specs : AllocationSpecs) : Option (BState × Nat) :=
  let is_root := previous.isNone
  let prev_node : Node :=
    match previous with
    | some prev => prev
    | none => { next_ptr := st.root.free_root, size := 0 }
  match prev_node.next_ptr with
  | none => none -- models the panic of `prev_node.next_ptr.unwrap()`
  | some current_ptr =>
    let alloc_ptr := current_ptr + alloc_specs.padding
    let ptr_cursor := alloc_ptr + alloc_specs.size
    let metadata : AllocationMetadata :=
      { align_padding := alloc_specs.padding,
        fill_padding := alloc_specs.fill_padding }
    let mem1 := bwrite st.mem ptr_cursor (Rec.meta metadata)
    if alloc_specs.remaining_size ≠ 0 then
      let ptr_cursor2 :=
        ptr_cursor + ALLOCATION_METADATA_LAYOUT_SIZE + alloc_specs.fill_padding
      let node : Node :=
        { next_ptr := current.next_ptr, size := alloc_specs.remaining_size }
      let mem2 := bwrite mem1 ptr_cursor2 (Rec.node node)
      let root' : AllocatorRoot :=
        if is_root then { free_root := some ptr_cursor2 } else st.root
      some ({ root := root', mem := mem2 }, alloc_ptr)
    else
      let root' : AllocatorRoot :=
        if is_root then { free_root := current.next_ptr } else st.root
      some ({ root := root', mem := mem1 }, alloc_ptr)

/-- The loop of `find_insertion_point` (`alloc_root.rs` lines 144-160) over
the byte-accurate arena; `none` when the fuel runs out or a read touches
clobbered bytes. -/
def find_insertion_point_go_b (mem : BMem) (block_ptr : Nat) :
    Nat → Nat → Option (Option Nat × Option Nat)
  | _, 0 => none
  | previous_node_ptr, fuel + 1 =>
    match breadNode mem previous_node_ptr with
    | none => none
    | some previous_node =>
      match previous_node.next_ptr with
      | some p =>
        if block_ptr < p then some (some previous_node_ptr, some p)
        else find_insertion_point_go_b mem block_ptr p fuel
      | none => some (some previous_node_ptr, none)

/-- `find_insertion_point` (`alloc_root.rs` lines 133-161) over the
byte-accurate arena. -/
def find_insertion_point_b (mem : BMem) (block_ptr root_ptr fuel : Nat) :
    Option (Option Nat × Option Nat) :=
  if block_ptr < root_ptr then some (none, some root_ptr)
  else find_insertion_point_go_b mem block_ptr root_ptr fuel

/-- `try_merge_nodes` (`alloc_root.rs` lines 168-204) over the
byte-accurate arena; the previous node is read whenever present, the next
node only when merging with it, exactly as in the source. -/
def try_merge_nodes_b (mem : BMem) (block_ptr block_size : Nat)
    (previous_ptr next_ptr : Option Nat) : Option (Node × Nat) :=
  let node0 : Node := { size := block_size, next_ptr := none }
  let step1 : Option (Node × Nat) :=
    match previous_ptr with
    | some p =>
      match breadNode mem p with
      | none => none
      | some previous =>
        if block_ptr = p + previous.size then
          some ({ size := node0.size + previous.size,
                  next_ptr := previous.next_ptr }, p)
        else some ({ node0 with next_ptr := previous.next_ptr }, block_ptr)
    | none => some (node0, block_ptr)
  match step1 with
  | none => none
  | some (node1, new_ptr1) =>
    match next_ptr with
    | some p =>
      if new_ptr1 + node1.size = p then
        match breadNode mem p with
        | none => none
        | some next =>
          some ({ size := node1.size + next.size,
                  next_ptr := next.next_ptr }, new_ptr1)
      else some ({ node1 with next_ptr := next_ptr }, new_ptr1)
    | none => some (node1, new_ptr1)

/-- `create_free_node` (`alloc_root.rs` lines 95-124) over the
byte-accurate arena.  As in the source, when a previous node exists and the
merged node is not written at the previous node's address, the previous
node's arena copy keeps its old successor. -/
def create_free_node_b (st : BState) (block_ptr initial_size fuel : Nat) :
    Option BState :=
  match st.root.free_root with
  | none =>
    some { root := { free_root := some block_ptr },
           mem := bwrite st.mem block_ptr
             (Rec.node { next_ptr := none, size := initial_size }) }
  | some root_ptr =>
    match find_insertion_point_b st.mem block_ptr root_ptr fuel with
    | none => none
    | some (previous_ptr, next_ptr) =>
      match try_merge_nodes_b st.mem block_ptr initial_size previous_ptr
          next_ptr with
      | none => none
      | some (node, dest_ptr) =>
        let mem' := bwrite st.mem dest_ptr (Rec.node node)
        let root' : AllocatorRoot :=
          if previous_ptr = none then { free_root := some dest_ptr }
          else st.root
        some { root := root', mem := mem' }

/-- The search loop of `FreeListAllocator::alloc` (`mod.rs` lines 82-91)
over the byte-accurate arena. -/
def alloc_find_b (mem : BMem) (size align : Nat) :
    Nat → Node → Option (Option (Node × Node × Nat × AllocationSpecs))
  | 0, previous_node =>
    match previous_node.next_ptr with
    | none => some none
    | some _ => none
  | fuel + 1, previous_node =>
    match previous_node.next_ptr with
    | none => some none
    | some node_ptr =>
      match breadNode mem node_ptr with
      | none => none
      | some node =>
        match node.try_get_alloc_specs size align node_ptr with
        | some alloc_specs =>
          some (some (previous_node, node, node_ptr, alloc_specs))
        | none => alloc_find_b mem size align fuel node

/-- `FreeListAllocator::alloc` (`mod.rs` lines 63-95) over the
byte-accurate arena. -/
def alloc_b (st : BState) (size align fuel : Nat) :
    Option (BState × Option Nat) :=
  match st.root.free_root with
  | none => some (st, none) -- No memory available
  | some node_ptr =>
    match breadNode st.mem node_ptr with
    | none => none
    | some node =>
      match node.try_get_alloc_specs size align node_ptr with
      | some alloc_specs =>
        (split_alloc_b st none node alloc_specs).map fun r => (r.1, some r.2)
      | none =>
        match alloc_find_b st.mem size align fuel node with
        | none => none
        | some none => some (st, none) -- Failed to find a suitable space
        | some (some (previous_node, node', _, alloc_specs)) =>
          (split_alloc_b st (some previous_node) node' alloc_specs).map
            fun r => (r.1, some r.2)

/-- `FreeListAllocator::dealloc` (`mod.rs` lines 97-115) over the
byte-accurate arena: reading the trailing metadata fails if its bytes were
clobbered. -/
def dealloc_b (st : BState) (ptr size fuel : Nat) : Option BState :=
  match breadMeta st.mem (ptr + size) with
  | none => none
  | some metadata =>
    let block_ptr := ptr - metadata.align_padding
    create_free_node_b st block_ptr
      (metadata.align_padding + size + ALLOCATION_METADATA_LAYOUT_SIZE
        + metadata.fill_padding) fuel

/-- The state produced by `FreeListAllocator::<S>::new` over the
byte-accurate arena: one node of size `S` at offset 0, registered as
root. -/
def newBState (S : Nat) : BState :=
  { root := { free_root := some 0 },
    mem := bwrite [] 0 (Rec.node { next_ptr := none, size := S }) }

/-- Walk the free list in the byte-accurate arena, collecting node
addresses; `none` when the fuel runs out or a header read touches
clobbered bytes. -/
def walk_b (mem : BMem) : Option Nat → Nat → Option (List Nat)
  | none, _ => some []
  | some _, 0 => none
  | some a, fuel + 1 =>
    match breadNode mem a with
    | none => none
    | some n => (walk_b mem n.next_ptr fuel).map fun l => a :: l

/-- Run one operation on the byte-accurate allocator; alloc results are
recorded so a trace lists the pointers handed out. -/
def runOp (st : BState) (op : Op) : Option (BState × Option (Option Nat)) :=
  match op with
  | .alloc size align =>
    (alloc_b st size align 64).map fun r => (r.1, some r.2)
  | .dealloc ptr size =>
    (dealloc_b st ptr size 64).map fun st' => (st', none)

/-- Run a sequence of operations on the byte-accurate allocator,
collecting the results of the alloc calls in order; `none` if any
operation reads clobbered bytes or runs out of fuel. -/
def runOps (st : BState) : List Op → Option (BState × List (Option Nat))
  | [] => some (st, [])
  | op :: ops =>
    match runOp st op with
    | none => none
    | some (st', res) =>
      (runOps st' ops).map fun r =>
        (r.1, match res with | some p => p :: r.2 | none => r.2)

/-! ## Corruption traces: the missing `previous.next_ptr` write-back

`split_alloc` updates a non-root previous node's `next_ptr` only in the
local `prev_node` copy (`alloc_root.rs` lines 78/81), and `create_free_node`
updates nothing but the root after writing the merged node
(`alloc_root.rs` lines 120-123), even though the written node may live at a
new address the previous node should now point to — the spec's section 4.3
says to update the previous node's `next` (or the root) to point at it, and
`mod.rs`'s removal comment says the same for whole-node consumption.  The
traces below drive the allocator through those paths with a well-behaved
caller (every deallocated `(pointer, size)` pair was returned by a previous
`alloc` of that size and is freed exactly once, every request uses align 1)
and exhibit the resulting free-list corruption.  They run in the
byte-accurate `BMem` model, and each completes with `some`: every record
read during the runs is intact (in fact every write in these traces falls
on fresh bytes or exactly overwrites a record of the same type, and every
record address is 8-aligned), so the final states are real program
behaviour, not artifacts of a typed-memory idealization. -/

/-- Claim C6 (code bug): a well-behaved 8-operation trace after which
walking the free list from `free_root` yields addresses `[360, 304]`,
which is not strictly increasing.  The alloc results are
`[0, 120, 240, 0, 240]` and the deallocs free exactly previously returned,
not-yet-freed blocks.  The corruption starts at the 4th operation: alloc
in place of the non-root node at 240 never writes the previous node's new
`next_ptr` back to the arena, so the stale link lets the 6th operation
hand out bytes overlapping the live block at 240, and the 8th operation
splits the node at 240 into a remainder node at 360 that links back down
to the node at 304. -/
theorem freeListC6_walk_not_sorted :
    ((runOps (newBState 1024)
        [.alloc 104 1, .alloc 104 1, .dealloc 0 104, .alloc 208 1,
         .dealloc 120 104, .alloc 288 1, .dealloc 240 208,
         .alloc 104 1]).map
      (fun r => (r.2, walk_b r.1.mem r.1.root.free_root 16))
      = some ([some 0, some 120, some 240, some 0, some 240],
              some [360, 304]))
    ∧ ¬ List.Chain' (· < ·) [360, 304] := by
  constructor
  · rfl
  · intro h
    rw [List.chain'_cons] at h
    omega

/-- Claim C5 (code bug): extending the C6 trace by one more legal
deallocation (`dealloc 0 288`, freeing the block returned by the 6th
operation) leaves reachable free nodes at addresses `[0, 360, 304]` where
the node at 0 has size 304: the nodes at 0 and 304 are address-adjacent
(`0 + 304 = 304`) yet persist unmerged after the deallocation completes. -/
theorem freeListC5_adjacent_unmerged :
    ((runOps (newBState 1024)
        [.alloc 104 1, .alloc 104 1, .dealloc 0 104, .alloc 208 1,
         .dealloc 120 104, .alloc 288 1, .dealloc 240 208, .alloc 104 1,
         .dealloc 0 288]).map
      (fun r => (r.2, walk_b r.1.mem r.1.root.free_root 16,
                 (breadNode r.1.mem 0).map Node.size))
      = some ([some 0, some 120, some 240, some 0, some 240],
              some [0, 360, 304], some 304))
    ∧ (0 + 304 = 304 ∧ 304 ∈ [0, 360, 304]) := by
  constructor
  · rfl
  · decide

/-- Claim C10 (code bug): a well-behaved 4-operation trace on a fresh
128-byte arena ending in an allocation that consumes the non-root free
node at 80 entirely (`try_get_alloc_specs` accepts it with
`remaining_size = 0`) and returns pointer 80 — yet afterwards the
previous node at 0 still has `next_ptr = some 80` in the arena and the
walk still yields `[0, 80]`: the consumed node was never unlinked, because
`split_alloc` sets `prev_node.next_ptr = current.next_ptr` only on its
dropped local copy.  (The root-path clauses of the claim do hold: a
consumed successor-less root empties `free_root`, a rootless `alloc`
returns null with the state unchanged, and a deallocation reinstalls a
root.) -/
theorem freeListC10_consumed_node_not_unlinked :
    ((runOps (newBState 128)
        [.alloc 24 1, .alloc 24 1, .dealloc 0 24, .alloc 32 1]).map
      (fun r => (r.2, walk_b r.1.mem r.1.root.free_root 16,
                 breadNode r.1.mem 0, r.1.root.free_root))
      = some ([some 0, some 40, some 80],
              some [0, 80], some ⟨some 80, 40⟩, some 0))
    ∧ Node.try_get_alloc_specs ⟨none, 48⟩ 32 1 80 = some ⟨0, 32, 0, 0⟩
    ∧ (some 80 : Option Nat) ≠ none := by
  refine ⟨by rfl, by rfl, by decide⟩

/-- Claim C9 counterexample: on a fresh 128-byte arena, `alloc 4 1`
succeeds returning offset 0, but the remaining free space is a single free
node at offset 24, not at offset `4 + metadata_size = 20` as the claim
states. -/
theorem freeListC9_counterexample :
    ((alloc (newAllocState 128) 4 1 16).map
        (fun r => (r.2, walkChainO r.1.mem r.1.root.free_root 16))
      = some (some 0, some [24]))
    ∧ (24 : Nat) ≠ 4 + ALLOCATION_METADATA_LAYOUT_SIZE := by
  constructor
  · rfl
  · decide

/-- Claim C9 as amended: on a fresh 128-byte arena, `alloc 4 1` succeeds
returning offset 0, and the remaining free space becomes a single free node
at offset `4 + metadata_size + fill_padding = 24` of size
`128 - 4 - metadata_size - fill_padding = 104`, where the fill padding
`NODE_LAYOUT_SIZE - (4 + metadata_size) = 4` rounds the consumed block up
to one node header. -/
theorem freeListC9_amended :
    ((alloc (newAllocState 128) 4 1 16).map
        (fun r => (r.2, walkChainO r.1.mem r.1.root.free_root 16,
                   (r.1.mem.nodes 24).size))
      = some (some 0, some [24], 104))
    ∧ 24 = 4 + ALLOCATION_METADATA_LAYOUT_SIZE + 4
    ∧ 104 = 128 - 4 - ALLOCATION_METADATA_LAYOUT_SIZE - 4
    ∧ 4 = NODE_LAYOUT_SIZE - (4 + ALLOCATION_METADATA_LAYOUT_SIZE) := by
  refine ⟨by rfl, by decide, by decide, by decide⟩

/-! ## Claim C7: first-fit search -/

/-- Walking succeeds with the same chain when given one more unit of fuel. -/
lemma walkChainO_fuel_succ (mem : Memory) :
    ∀ fuel cursor chain, walkChainO mem cursor fuel = some chain →
      walkChainO mem cursor (fuel + 1) = some chain := by
  intro fuel
  induction fuel with
  | zero =>
    intro cursor chain h
    cases cursor with
    | none => simpa [walkChainO] using h
    | some a => simp [walkChainO] at h
  | succ f ih =>
    intro cursor chain h
    cases cursor with
    | none => simpa [walkChainO] using h
    | some a =>
      simp only [walkChainO, Option.map_eq_some'] at h ⊢
      obtain ⟨l, hl, rfl⟩ := h
      exact ⟨l, ih _ _ hl, rfl⟩

/-- The `while` loop of `alloc` realizes first-fit over the chain hanging
off `prev.next_ptr`: if no node of that chain accepts the request it ends
with `some none`, and otherwise it stops at the first accepting node `a`,
carrying a previous-node value whose `next_ptr` is `a`. -/
lemma alloc_find_first_fit (mem : Memory) (size align : Nat) :
    ∀ fuel (prev : Node) chain,
      walkChainO mem prev.next_ptr fuel = some chain →
      (firstFit mem size align chain = none →
        alloc_find mem size align fuel prev = some none)
      ∧ (∀ a, firstFit mem size align chain = some a →
          ∃ specs prevN,
            alloc_find mem size align fuel prev
              = some (some (prevN, mem.nodes a, a, specs)) ∧
            prevN.next_ptr = some a ∧
            (mem.nodes a).try_get_alloc_specs size align a = some specs) := by
  intro fuel
  induction fuel with
  | zero =>
    intro prev chain h
    cases hnp : prev.next_ptr with
    | none =>
      rw [hnp] at h
      simp only [walkChainO, Option.some.injEq] at h
      subst h
      refine ⟨fun _ => by simp [alloc_find, hnp], fun a ha => ?_⟩
      simp [firstFit] at ha
    | some p =>
      rw [hnp] at h
      simp [walkChainO] at h
  | succ f ih =>
    intro prev chain h
    cases hnp : prev.next_ptr with
    | none =>
      rw [hnp] at h
      simp only [walkChainO, Option.some.injEq] at h
      subst h
      refine ⟨fun _ => by simp [alloc_find, hnp], fun a ha => ?_⟩
      simp [firstFit] at ha
    | some p =>
      rw [hnp] at h
      simp only [walkChainO, Option.map_eq_some'] at h
      obtain ⟨rest, hrest, rfl⟩ := h
      cases hacc : (mem.nodes p).try_get_alloc_specs size align p with
      | some specs =>
        constructor
        · intro hff
          exact absurd hff (by simp [firstFit, List.find?_cons_of_pos, hacc])
        · intro a ha
          have hap : a = p := by
            rw [firstFit, List.find?_cons_of_pos _ (by simp [hacc])] at ha
            exact (Option.some.inj ha).symm
          subst hap
          exact ⟨specs, prev, by simp [alloc_find, hnp, hacc], hnp, hacc⟩
      | none =>
        have hstep : alloc_find mem size align (f + 1) prev
            = alloc_find mem size align f (mem.nodes p) := by
          simp [alloc_find, hnp, hacc]
        have htail : ∀ o, firstFit mem size align (p :: rest) = o →
            firstFit mem size align rest = o := by
          intro o ho
          rwa [firstFit, List.find?_cons_of_neg _ (by simp [hacc])] at ho
        have hrec := ih (mem.nodes p) rest hrest
        constructor
        · intro hff
          rw [hstep]
          exact hrec.1 (htail _ hff)
        · intro a ha
          obtain ⟨specs, prevN, h1, h2, h3⟩ := hrec.2 a (htail _ ha)
          exact ⟨specs, prevN, by rw [hstep]; exact h1, h2, h3⟩

/-- Claim C7: `alloc` walks the free list from `free_root` in list order
(the chain produced by `walkChainO`), evaluates `try_get_alloc_specs`
against each node, allocates in place of the first accepting node
(first-fit, returning that node's address plus the computed padding), and
returns the null pointer — leaving the state unchanged — exactly when no
node of the list accepts. -/
theorem freeListC7_first_fit (st : AllocState) (size align fuel : Nat)
    (chain : List Nat)
    (hw : walkChainO st.mem st.root.free_root fuel = some chain) :
    ((∀ a ∈ chain,
        (st.mem.nodes a).try_get_alloc_specs size align a = none) ↔
      firstFit st.mem size align chain = none)
    ∧ (firstFit st.mem size align chain = none →
        alloc st size align fuel = some (st, none))
    ∧ (∀ a, firstFit st.mem size align chain = some a →
        ∃ st' specs,
          (st.mem.nodes a).try_get_alloc_specs size align a = some specs ∧
          alloc st size align fuel = some (st', some (a + specs.padding))) := by
  have hiff : (∀ a ∈ chain,
      (st.mem.nodes a).try_get_alloc_specs size align a = none) ↔
      firstFit st.mem size align chain = none := by
    rw [firstFit, List.find?_eq_none]
    constructor
    · intro hall a ha
      simp [hall a ha]
    · intro hall a ha
      have h2 := hall a ha
      simp only [Option.isSome_iff_ne_none, ne_eq, not_not] at h2
      exact h2
  refine ⟨hiff, ?_, ?_⟩
  · -- failure conjunct
    intro hff
    cases hroot : st.root.free_root with
    | none =>
      unfold alloc
      rw [hroot]
    | some r =>
      rw [hroot] at hw
      cases fuel with
      | zero => simp [walkChainO] at hw
      | succ f =>
        simp only [walkChainO, Option.map_eq_some'] at hw
        obtain ⟨rest, hrest, hchain⟩ := hw
        subst hchain
        have hrest' : walkChainO st.mem (st.mem.nodes r).next_ptr (f + 1)
            = some rest := walkChainO_fuel_succ st.mem f _ rest hrest
        cases hacc : (st.mem.nodes r).try_get_alloc_specs size align r with
        | some specs =>
          exact absurd hff
            (by simp [firstFit, List.find?_cons_of_pos, hacc])
        | none =>
          have htail : firstFit st.mem size align rest = none := by
            rwa [firstFit, List.find?_cons_of_neg _ (by simp [hacc])] at hff
          have hloop := (alloc_find_first_fit st.mem size align (f + 1)
            (st.mem.nodes r) rest hrest').1 htail
          unfold alloc
          rw [hroot]
          dsimp only
          rw [hacc]
          dsimp only
          rw [hloop]
  · -- success conjunct
    intro a ha
    cases hroot : st.root.free_root with
    | none =>
      rw [hroot] at hw
      simp only [walkChainO, Option.some.injEq] at hw
      subst hw
      simp [firstFit] at ha
    | some r =>
      rw [hroot] at hw
      cases fuel with
      | zero => simp [walkChainO] at hw
      | succ f =>
        simp only [walkChainO, Option.map_eq_some'] at hw
        obtain ⟨rest, hrest, hchain⟩ := hw
        subst hchain
        have hrest' : walkChainO st.mem (st.mem.nodes r).next_ptr (f + 1)
            = some rest := walkChainO_fuel_succ st.mem f _ rest hrest
        cases hacc : (st.mem.nodes r).try_get_alloc_specs size align r with
        | some specs =>
          have hap : a = r := by
            rw [firstFit, List.find?_cons_of_pos _ (by simp [hacc])] at ha
            exact (Option.some.inj ha).symm
          subst hap
          obtain ⟨st', hsplit⟩ := split_alloc_ptr st none (st.mem.nodes a)
            specs a (by dsimp only; exact hroot)
          refine ⟨st', specs, hacc, ?_⟩
          unfold alloc
          rw [hroot]
          dsimp only
          rw [hacc]
          dsimp only
          rw [hsplit]
          rfl
        | none =>
          have htail : firstFit st.mem size align rest = some a := by
            rwa [firstFit, List.find?_cons_of_neg _ (by simp [hacc])] at ha
          obtain ⟨specs, prevN, h1, h2, h3⟩ :=
            (alloc_find_first_fit st.mem size align (f + 1)
              (st.mem.nodes r) rest hrest').2 a htail
          obtain ⟨st', hsplit⟩ := split_alloc_ptr st (some prevN)
            (st.mem.nodes a) specs a (by dsimp only; exact h2)
          refine ⟨st', specs, h3, ?_⟩
          unfold alloc
          rw [hroot]
          dsimp only
          rw [hacc]
          dsimp only
          rw [h1]
          dsimp only
          rw [hsplit]
          rfl

/-- Claim C7 witness: on a fresh 128-byte arena (free list `[0]`), a
request of size 1000 is rejected by every node, and `alloc` returns the
null pointer leaving the state unchanged. -/
theorem freeListC7_first_fit_witness :
    alloc (newAllocState 128) 1000 1 4 = some (newAllocState 128, none) :=
  (freeListC7_first_fit (newAllocState 128) 1000 1 4 [0] (by rfl)).2.1
    (by rfl)

end MemAlloc

